import Mathlib

/-!
Shallow embedding of the Codio pause-to-code backend service
(`codio-backend/pause_to_code_service.py`) and proofs about its
specification.  Timestamps, durations and confidences (Python floats)
are modelled as rationals; Python dicts keyed by strings are modelled
as association lists; the JSON cache document is modelled as a
structure whose optional fields use `none` for an absent key.
-/

/-- One sampled instant of the video, mirroring the Python dataclass
`CodeSegment`. -/
structure CodeSegment where
  timestamp : Rat
  frame_number : Int
  segment_type : String
  code_content : Option String
  learning_topic : Option String
  confidence : Rat
  language : String
  code_complete : Bool
deriving DecidableEq, Repr

/-- Mirrors the Python dataclass `TranscriptEntry`. -/
structure TranscriptEntry where
  timestamp : Rat
  text : String
  duration : Rat
deriving DecidableEq, Repr

/-- Mirrors the Python dataclass `DetectedConcept`. -/
structure DetectedConcept where
  concept_name : String
  category : String
  timestamps : List Rat
  confidence : Rat
  description : Option String
deriving DecidableEq, Repr

/-- The metadata dict produced by `VideoProcessor.download_video`
(keys `title`, `duration`, `author`, `views`, `video_id`). -/
structure VideoMetadata where
  title : String
  duration : Rat
  author : String
  views : Nat
  video_id : String
deriving DecidableEq, Repr

/-- Mirrors the Python dataclass `VideoAnalysis`.  The two trailing
fields default to `None` in the source. -/
structure VideoAnalysis where
  video_id : String
  video_title : String
  duration : Rat
  total_frames_analyzed : Nat
  code_segments : List CodeSegment
  metadata : VideoMetadata
  extraction_date : String
  transcript : Option (List TranscriptEntry) := none
  detected_concepts : Option (List DetectedConcept) := none
deriving DecidableEq, Repr

/-- The persisted JSON document written by
`PauseToCodeService._cache_analysis`.  `transcript = none` (resp.
`detected_concepts = none`) means the key is absent from the stored
document; `some l` means the key is present and holds the list `l`. -/
structure AnalysisDoc where
  video_id : String
  video_title : String
  duration : Rat
  total_frames_analyzed : Nat
  code_segments : List CodeSegment
  metadata : VideoMetadata
  extraction_date : String
  transcript : Option (List TranscriptEntry)
  detected_concepts : Option (List DetectedConcept)
deriving DecidableEq, Repr

/-- Python truthiness of an optional list (`if analysis.transcript:` /
`if 'transcript' in data and data['transcript']:`): both a missing
value and an empty list are falsy. -/
def pyTruthy : Option (List α) → Option (List α)
  | none => none
  | some l => if l.isEmpty then none else some l

/-- Embeds `PauseToCodeService._cache_analysis`: the mandatory fields
are always written; the `transcript` key is written only when the
field is truthy, and likewise `detected_concepts`. -/
def cache_analysis (a : VideoAnalysis) : AnalysisDoc :=
  { video_id := a.video_id
    video_title := a.video_title
    duration := a.duration
    total_frames_analyzed := a.total_frames_analyzed
    code_segments := a.code_segments
    metadata := a.metadata
    extraction_date := a.extraction_date
    transcript := pyTruthy a.transcript
    detected_concepts := pyTruthy a.detected_concepts }

/-- Embeds `PauseToCodeService._load_cached_analysis`: mandatory keys
are read directly; `transcript` and `detected_concepts` are read as
`None` unless present and truthy (`if 'transcript' in data and
data['transcript']:`). -/
def load_cached_analysis (d : AnalysisDoc) : VideoAnalysis :=
  { video_id := d.video_id
    video_title := d.video_title
    duration := d.duration
    total_frames_analyzed := d.total_frames_analyzed
    code_segments := d.code_segments
    metadata := d.metadata
    extraction_date := d.extraction_date
    transcript := pyTruthy d.transcript
    detected_concepts := pyTruthy d.detected_concepts }

/-- One entry of `PauseToCodeService.processing_progress`
(dict with keys `status`, `progress`, `stage`, `total_frames`,
`current_frame`). -/
structure ProgressInfo where
  status : String
  progress : Nat
  stage : String
  total_frames : Nat
  current_frame : Nat
deriving DecidableEq, Repr

/-- Python dict read (`d.get(k)` / `d[k]`), on a dict modelled as an
association list. -/
def lookupKey (m : List (String × α)) (k : String) : Option α :=
  (m.find? (fun p => p.1 == k)).map (fun p => p.2)

/-- Python guarded dict delete (`if k in d: del d[k]`). -/
def removeKey (m : List (String × α)) (k : String) : List (String × α) :=
  m.filter (fun p => !(p.1 == k))

/-- Python dict write (`d[k] = v`). -/
def setKey (m : List (String × α)) (k : String) (v : α) : List (String × α) :=
  if (m.find? (fun p => p.1 == k)).isSome then
    m.map (fun p => if p.1 == k then (k, v) else p)
  else m ++ [(k, v)]

/-- The mutable state of a `PauseToCodeService` instance together with
the disk contents it owns: the analysis cache (one JSON document per
video id, file `{video_id}_analysis.json`), the in-memory
`processing_progress` dict, and the set of regular files below the
cache directory, each file as its list of path components. -/
structure ServiceState where
  cache : List (String × AnalysisDoc)
  progress : List (String × ProgressInfo)
  files : List (List String)
deriving DecidableEq, Repr

/-- The response dict of `get_code_at_timestamp`.  The human-readable
`message` strings of the Python dicts are not modelled; the fields
that carry data are. -/
inductive QueryResult where
  | notProcessed (video_id : String)
  | notFound (timestamp_requested : Rat)
  | learning (timestamp_requested timestamp_actual time_difference : Rat)
      (learning_topic : Option String) (confidence : Rat)
  | code (timestamp_requested timestamp_actual time_difference : Rat)
      (code_content : Option String) (confidence : Rat) (language : String)
      (code_complete : Bool)
deriving DecidableEq, Repr

/-- One iteration of the selection loop of `get_code_at_timestamp`:
`diff = abs(segment.timestamp - timestamp)`;
`if diff < min_diff and diff <= tolerance: min_diff, nearest = diff, segment`.
`none` models the initial `min_diff = inf, nearest_segment = None`
state (against which `diff < inf` always holds). -/
def scanStep (t tol : Rat) (acc : Option (Rat × CodeSegment)) (seg : CodeSegment) :
    Option (Rat × CodeSegment) :=
  let diff := |seg.timestamp - t|
  match acc with
  | none => if diff ≤ tol then some (diff, seg) else none
  | some (m, best) =>
      if diff < m ∧ diff ≤ tol then some (diff, seg) else some (m, best)

/-- The full scan of `analysis.code_segments` in `get_code_at_timestamp`. -/
def findNearest (t tol : Rat) (l : List CodeSegment) : Option (Rat × CodeSegment) :=
  l.foldl (scanStep t tol) none

/-- The kind-dependent response built by `get_code_at_timestamp` from
the selected segment and the recorded minimum difference. -/
def resultOf (t m : Rat) (s : CodeSegment) : QueryResult :=
  if s.segment_type = "learning" then
    QueryResult.learning t s.timestamp m s.learning_topic s.confidence
  else
    QueryResult.code t s.timestamp m s.code_content s.confidence s.language
      s.code_complete

/-- Embeds `PauseToCodeService.get_code_at_timestamp`. -/
def get_code_at_timestamp (st : ServiceState) (video_id : String)
    (timestamp tolerance : Rat) : QueryResult :=
  match lookupKey st.cache video_id with
  | none => QueryResult.notProcessed video_id
  | some doc =>
      match findNearest timestamp tolerance
          (load_cached_analysis doc).code_segments with
      | none => QueryResult.notFound timestamp
      | some (m, seg) => resultOf timestamp m seg

/-- Specification-side predicate: `s` is the first segment of `l` (in
sampling order) whose distance to `t` is within `tol` and minimal
among the within-tolerance segments; every earlier within-tolerance
segment is strictly farther (exact ties are won by the earlier
segment), every later one at least as far. -/
def IsFirstNearest (t tol : Rat) (l : List CodeSegment) (s : CodeSegment) : Prop :=
  ∃ l₁ l₂, l = l₁ ++ s :: l₂ ∧ |s.timestamp - t| ≤ tol ∧
    (∀ u ∈ l₁, |u.timestamp - t| ≤ tol → |s.timestamp - t| < |u.timestamp - t|) ∧
    (∀ u ∈ l₂, |u.timestamp - t| ≤ tol → |s.timestamp - t| ≤ |u.timestamp - t|)

/-- Concrete fixture for the tolerance-boundary scenario: a segment at
t=10.0 and one at t=13.0. -/
def c1Seg10 : CodeSegment :=
  ⟨10, 1, "learning", none, some "intro to loops", 9/10, "python", false⟩

/-- Second fixture segment, at t=13.0. -/
def c1Seg13 : CodeSegment :=
  ⟨13, 2, "code", some "x = 1", none, 4/5, "python", true⟩

/-- Cached document holding the two fixture segments. -/
def c1Doc : AnalysisDoc :=
  ⟨"vid1", "t", 40, 2, [c1Seg10, c1Seg13], ⟨"t", 40, "a", 0, "vid1"⟩,
    "2024-01-01", none, none⟩

/-- Service state whose cache holds the fixture document. -/
def c1State : ServiceState := ⟨[("vid1", c1Doc)], [], []⟩

/-- Embeds `VideoProcessor.extract_frames_fixed_interval`.  The media
is abstracted by its frame rate `fps` and frame count `total_frames`;
decoding yields frames `0, 1, ..., total_frames - 1` in order.
`frame_interval = int(fps * interval_seconds)` truncates toward zero,
which coincides with the floor for the nonnegative products considered
here.  The Python loop computes `frame_count % frame_interval`, which
raises `ZeroDivisionError` when `frame_interval = 0`; that case is
modelled as `none`.  For each sampled frame `n` the pair (timestamp,
frame number) is recorded, where `CAP_PROP_POS_MSEC` is modelled as
the presentation time `n / fps` of the frame just read and
`CAP_PROP_POS_FRAMES` after the read is the index `n + 1` of the next
frame. -/
def extract_frames_fixed_interval (fps : Rat) (total_frames : Nat)
    (interval_seconds : Rat) : Option (List (Rat × Nat)) :=
  let frame_interval : Nat := ((fps * interval_seconds).floor).toNat
  if frame_interval = 0 then none
  else some
    (((List.range total_frames).filter (fun n => n % frame_interval == 0)).map
      (fun (n : Nat) => ((n : Rat) / fps, n + 1)))

/-- The parsed JSON object returned by the classification oracle for
one frame.  Every key is optional: `json.loads` accepts any object, so
a schema-valid response has all keys, while a malformed one may miss
any of them.  A `none` field models an absent key (for
`code_content`/`learning_topic`, Python's `dict.get` conflates an
absent key with an explicit `null`, so `none` covers both). -/
structure RawJudgment where
  segment_type : Option String
  has_code : Option Bool
  code_content : Option String
  learning_topic : Option String
  confidence : Option Rat
  language : Option String
  code_complete : Option Bool
deriving DecidableEq, Repr

/-- The dict returned by `GeminiCodeExtractor.analyze_frame`: the
parsed response with `result['timestamp'] = timestamp` added. -/
structure FrameAnalysis where
  timestamp : Rat
  segment_type : Option String
  has_code : Option Bool
  code_content : Option String
  learning_topic : Option String
  confidence : Option Rat
  language : Option String
  code_complete : Option Bool
deriving DecidableEq, Repr

/-- Embeds `GeminiCodeExtractor._create_error_result`: the dict
substituted when frame analysis fails. -/
def create_error_result (timestamp : Rat) : FrameAnalysis :=
  { timestamp := timestamp
    segment_type := some "learning"
    has_code := some false
    code_content := none
    learning_topic := some "Analysis failed"
    confidence := some 0
    language := some "python"
    code_complete := some false }

/-- Embeds `GeminiCodeExtractor.analyze_frame`: a transport error from
the model call or a `json.JSONDecodeError` (both reaching the `except`
clauses) yields `_create_error_result(timestamp)`; a parseable
response is returned with the timestamp added. -/
def analyze_frame (response : Except String RawJudgment) (timestamp : Rat) :
    FrameAnalysis :=
  match response with
  | Except.error _ => create_error_result timestamp
  | Except.ok j =>
      { timestamp := timestamp
        segment_type := j.segment_type
        has_code := j.has_code
        code_content := j.code_content
        learning_topic := j.learning_topic
        confidence := j.confidence
        language := j.language
        code_complete := j.code_complete }

/-- The `CodeSegment(...)` construction in the per-frame loop of
`process_video`: `analysis['segment_type']` is a mandatory key lookup
whose `KeyError` propagates out of the loop, while the remaining
fields are read with `.get` and defaults (`confidence` 0.0, `language`
'python', `code_complete` False). -/
def segment_of_analysis (ts : Rat) (fn : Int) (a : FrameAnalysis) :
    Except String CodeSegment :=
  match a.segment_type with
  | none => Except.error "KeyError: segment_type"
  | some st =>
      Except.ok
        { timestamp := ts
          frame_number := fn
          segment_type := st
          code_content := a.code_content
          learning_topic := a.learning_topic
          confidence := a.confidence.getD 0
          language := a.language.getD "python"
          code_complete := a.code_complete.getD false }

/-- The frame-classification loop of `process_video` from position
`idx` of the enumeration: frames are classified in sampling order, one
segment appended per frame; an uncaught exception aborts the loop
immediately. -/
def buildSegmentsFrom (oracle : Nat → Except String RawJudgment) (idx : Nat) :
    List (Rat × Int) → Except String (List CodeSegment)
  | [] => Except.ok []
  | p :: rest =>
    match segment_of_analysis p.1 p.2 (analyze_frame (oracle idx) p.1) with
    | Except.error e => Except.error e
    | Except.ok s =>
      match buildSegmentsFrom oracle (idx + 1) rest with
      | Except.error e => Except.error e
      | Except.ok tail => Except.ok (s :: tail)

/-- The full frame-classification loop of `process_video`
(`for idx, (frame, timestamp, frame_number) in enumerate(frames_data)`),
with each frame abstracted by its (timestamp, frame number) pair and
the oracle response for position `idx` given by `oracle idx`. -/
def buildSegments (oracle : Nat → Except String RawJudgment)
    (frames : List (Rat × Int)) : Except String (List CodeSegment) :=
  buildSegmentsFrom oracle 0 frames

/-- Fixture oracle for the segment assembler: the call for frame 0
fails with a transport error, later calls succeed. -/
def c6Oracle : Nat → Except String RawJudgment := fun i =>
  if i = 0 then Except.error "transport error"
  else Except.ok
    { segment_type := some "code"
      has_code := some true
      code_content := some "x = 1"
      learning_topic := none
      confidence := some 1
      language := some "python"
      code_complete := some true }

/-- Strips `pat` from the front of `s`, returning the remainder when
`pat` is a leading subsequence. -/
def dropLeading : List Char → List Char → Option (List Char)
  | [], bs => some bs
  | _ :: _, [] => none
  | a :: as, b :: bs => if a = b then dropLeading as bs else none

/-- Splits at the first occurrence of `sep`, returning the text before
and after it, or `none` when `sep` does not occur. -/
def splitFirst (sep : List Char) : List Char → Option (List Char × List Char)
  | [] => none
  | c :: rest =>
    match dropLeading sep (c :: rest) with
    | some tail => some ([], tail)
    | none =>
      match splitFirst sep rest with
      | none => none
      | some (pre, post) => some (c :: pre, post)

/-- Repeated splitting at every occurrence of `sep`, fuelled by the
input length (each found occurrence of a nonempty separator consumes
at least one character). -/
def splitAll (sep : List Char) : Nat → List Char → List (List Char)
  | 0, s => [s]
  | fuel + 1, s =>
    match splitFirst sep s with
    | none => [s]
    | some (pre, post) => pre :: splitAll sep fuel post

/-- Python's `s.split(sep)` for a nonempty separator. -/
def pySplit (s sep : String) : List String :=
  (splitAll sep.data s.data.length s.data).map (fun cs => String.mk cs)

/-- Python's `sub in s` substring test. -/
def pyContains (s sub : String) : Bool :=
  (splitFirst sub.data s.data).isSome

/-- Python's `s.startswith(pat)` / glob-style leading match. -/
def pyStartsWith (pat s : String) : Bool :=
  (dropLeading pat.data s.data).isSome

/-- Python's `s.endswith(pat)`. -/
def pyEndsWith (pat s : String) : Bool :=
  (dropLeading pat.data.reverse s.data.reverse).isSome

/-- Embeds `PauseToCodeService._extract_video_id`: recognised URL
shapes are `youtu.be/<id>` and `v=<id>`; otherwise the id is the MD5
hex digest of the URL, abstracted here as the parameter `md5hex`. -/
def extract_video_id (md5hex : String → String) (url : String) : String :=
  if pyContains url "youtu.be/" then
    (pySplit ((pySplit url "youtu.be/").getD 1 "") "?").getD 0 ""
  else if pyContains url "v=" then
    (pySplit ((pySplit url "v=").getD 1 "") "&").getD 0 ""
  else md5hex url

/-- The media path written by `VideoProcessor.download_video`,
relative to the service cache directory:
`videos/{playlist_folder}/{video_id}/video.mp4`, where the playlist
folder is the first 20 characters of the playlist id, or `single` when
the playlist id is absent or empty. -/
def download_output_path (playlist_id : Option String) (video_id : String) :
    List String :=
  ["videos",
    match playlist_id with
    | some p => if p = "" then "single" else String.mk (p.data.take 20)
    | none => "single",
    video_id, "video.mp4"]

/-- The response dict of `get_video_status`.  The frame counters are
present only in the active-progress branch. -/
structure StatusReport where
  video_id : String
  status : String
  progress : Nat
  stage : String
  current_frame : Option Nat
  total_frames : Option Nat
deriving DecidableEq, Repr

/-- Whether a path is matched by the glob
`(cache_dir / "videos").glob(f"{video_id}*.mp4")` used by
`get_video_status`: a regular file directly inside `videos/` whose
name starts with the video id and ends with `.mp4`. -/
def matchesStatusGlob (video_id : String) (path : List String) : Bool :=
  match path with
  | ["videos", name] => pyStartsWith video_id name && pyEndsWith ".mp4" name
  | _ => false

/-- Whether a file is deleted by `cancel_video_processing`: the
explicit unlink of `videos/{video_id}.mp4` together with the glob
`cache_dir.glob(f"videos/{video_id}*")` delete exactly the regular
files directly inside `videos/` whose name starts with the video id
(directories matched by the glob fail the `is_file()` check and are
skipped, which the two-component path pattern captures). -/
def matchesCancelGlob (video_id : String) (path : List String) : Bool :=
  match path with
  | ["videos", name] => pyStartsWith video_id name
  | _ => false

/-- Embeds `PauseToCodeService.get_video_status`: a cached analysis
reports completed/100; otherwise an active progress entry is reported
verbatim (`current_frame`/`total_frames` read with `.get(_, 0)`,
always present in this model); otherwise a file matched by the
`{video_id}*.mp4` glob reports processing/10; otherwise
not_found/0. -/
def get_video_status (st : ServiceState) (video_id : String) : StatusReport :=
  if (lookupKey st.cache video_id).isSome then
    { video_id := video_id, status := "completed", progress := 100
      stage := "Ready for pause-to-code", current_frame := none, total_frames := none }
  else
    match lookupKey st.progress video_id with
    | some p =>
        { video_id := video_id, status := p.status, progress := p.progress
          stage := p.stage, current_frame := some p.current_frame
          total_frames := some p.total_frames }
    | none =>
      if st.files.any (fun path => matchesStatusGlob video_id path) then
        { video_id := video_id, status := "processing", progress := 10
          stage := "Processing...", current_frame := none, total_frames := none }
      else
        { video_id := video_id, status := "not_found", progress := 0
          stage := "Not started", current_frame := none, total_frames := none }

/-- Embeds `PauseToCodeService.cancel_video_processing`: the progress
entry is removed when present, and the files matched by the cancel
glob are unlinked.  The analysis cache is never referenced. -/
def cancel_video_processing (st : ServiceState) (video_id : String) : ServiceState :=
  { st with
    progress := removeKey st.progress video_id
    files := st.files.filter (fun path => !(matchesCancelGlob video_id path)) }

/-- Fixture progress entry for an in-flight download. -/
def c8Progress : ProgressInfo :=
  { status := "downloading", progress := 50, stage := "Downloading: 50%"
    total_frames := 0, current_frame := 0 }

/-- The progress entry created at the start of `process_video`. -/
def initialProgress : ProgressInfo :=
  { status := "downloading", progress := 0, stage := "Downloading video..."
    total_frames := 0, current_frame := 0 }

/-- The progress entry written when frame extraction begins. -/
def extractingProgress : ProgressInfo :=
  { status := "extracting", progress := 15, stage := "Extracting frames..."
    total_frames := 0, current_frame := 0 }

/-- The progress entry written when the analysis stage begins for
`total` frames. -/
def analyzingHeaderProgress (total : Nat) : ProgressInfo :=
  { status := "analyzing", progress := 20
    stage := "Analyzing " ++ toString total ++ " frames with AI..."
    total_frames := total, current_frame := 0 }

/-- The progress entry written just before `_cache_analysis` is
called (status already `completed`, percent still 95). -/
def savingProgress (total : Nat) : ProgressInfo :=
  { status := "completed", progress := 95, stage := "Saving analysis..."
    total_frames := total, current_frame := total }

/-- The final progress entry, written after the cache write
returns. -/
def completedProgress (total : Nat) : ProgressInfo :=
  { status := "completed", progress := 100, stage := "Completed!"
    total_frames := total, current_frame := total }

/-- The progress entry after one byte-progress callback of the
download hook reporting `pct` percent (`update` touches only
`progress` and `stage`). -/
def downloadHookState (pct : Nat) : ProgressInfo :=
  { initialProgress with
    progress := pct
    stage := "Downloading: " ++ toString pct ++ "%" }

/-- The progress entry written by the analysis loop after classifying
frame `c` of `total`; `int((c/total)*75)` is modelled as the exact
floor `75*c/total` (the float rounding of the quotient is immaterial
to the claims below). -/
def analyzingFrameState (total c : Nat) : ProgressInfo :=
  { status := "analyzing"
    progress := 20 + 75 * c / total
    stage := "Analyzing frame " ++ toString c ++ "/" ++ toString total
    total_frames := total
    current_frame := c }

/-- The successive values taken by `processing_progress[video_id]`
during a successful run of `process_video`, in program order:
initialisation; the download hook states for the observed
byte-progress percentages, then the hook's finished update; the
extracting update; the analyzing header; one update per classified
frame; the completed/95 update issued just before `_cache_analysis`
is called; and the completed/100 update issued after the cache write
returns. -/
def process_video_progress_trace (downloadPcts : List Nat) (total : Nat) :
    List ProgressInfo :=
  [initialProgress]
  ++ downloadPcts.map downloadHookState
  ++ [{ initialProgress with progress := 100, stage := "Download complete!" }]
  ++ [extractingProgress]
  ++ [analyzingHeaderProgress total]
  ++ (List.range total).map (fun idx => analyzingFrameState total (idx + 1))
  ++ [savingProgress total]
  ++ [completedProgress total]

/-- The external collaborators consumed by one run of
`process_video`: the MD5 fallback of the id derivation, the download
result (local path and metadata, or a fatal retrieval error), the
frame-extraction result, the per-frame oracle responses, the
transcript-extraction result (already `None` when extraction failed,
since those exceptions are caught), and the wall-clock timestamp for
`extraction_date`. -/
structure PipelineEnv where
  md5hex : String → String
  download : Except String (String × VideoMetadata)
  extract : Except String (List (Rat × Int))
  oracle : Nat → Except String RawJudgment
  transcript : Option (List TranscriptEntry)
  now : String

/-- Embeds `PauseToCodeService.process_video` as a function from the
service state to the returned analysis (or propagated stage error)
and the final service state.  A cache hit with `force_reprocess`
false returns the loaded analysis before any progress entry is
created.  Otherwise the pipeline runs: on a fatal stage error the
progress entry is deleted and the error propagates; on success the
analysis (transcript made `None` when falsy, concepts `None`) is
written to the cache between the completed/95 and completed/100
progress updates.  Intermediate per-frame progress values are
modelled by `process_video_progress_trace`; only the final map
contents appear here.  The cache write itself is assumed to
succeed. -/
def process_video (env : PipelineEnv) (st : ServiceState) (url : String)
    (force_reprocess : Bool) : Except String VideoAnalysis × ServiceState :=
  let video_id := extract_video_id env.md5hex url
  match lookupKey st.cache video_id, force_reprocess with
  | some doc, false => (Except.ok (load_cached_analysis doc), st)
  | _, _ =>
    let st1 := { st with progress := setKey st.progress video_id initialProgress }
    match env.download with
    | Except.error e =>
        (Except.error e, { st1 with progress := removeKey st1.progress video_id })
    | Except.ok (_path, metadata) =>
      let st2 := { st1 with progress := setKey st1.progress video_id extractingProgress }
      match env.extract with
      | Except.error e =>
          (Except.error e, { st2 with progress := removeKey st2.progress video_id })
      | Except.ok frames =>
        let total := frames.length
        let st3 :=
          { st2 with progress := setKey st2.progress video_id (analyzingHeaderProgress total) }
        match buildSegments env.oracle frames with
        | Except.error e =>
            (Except.error e, { st3 with progress := removeKey st3.progress video_id })
        | Except.ok segments =>
          let analysis : VideoAnalysis :=
            { video_id := video_id
              video_title := metadata.title
              duration := metadata.duration
              total_frames_analyzed := total
              code_segments := segments
              metadata := metadata
              extraction_date := env.now
              transcript := pyTruthy env.transcript
              detected_concepts := none }
          let st4 :=
            { st3 with progress := setKey st3.progress video_id (savingProgress total) }
          let st5 := { st4 with cache := setKey st4.cache video_id (cache_analysis analysis) }
          let st6 :=
            { st5 with progress := setKey st5.progress video_id (completedProgress total) }
          (Except.ok analysis, st6)

/-- Fixture environment in which every collaborator would fail; a
cache hit must not consult any of them. -/
def c7Env : PipelineEnv :=
  { md5hex := fun _ => "d41d8cd98f00b204e9800998ecf8427e"
    download := Except.error "RetrievalError"
    extract := Except.error "MediaUnreadable"
    oracle := fun _ => Except.error "OracleError"
    transcript := none
    now := "2024-01-01T00:00:00" }

/-- Fixture cached document for the id `abc`. -/
def c7Doc : AnalysisDoc :=
  { video_id := "abc", video_title := "t", duration := 10
    total_frames_analyzed := 0, code_segments := []
    metadata := { title := "t", duration := 10, author := "a", views := 0, video_id := "abc" }
    extraction_date := "2024-01-01", transcript := none, detected_concepts := none }

/-- Fixture service state whose cache holds `c7Doc` under `abc`. -/
def c7State : ServiceState :=
  { cache := [("abc", c7Doc)], progress := [], files := [] }

/-- The conservative default segment recorded for a frame whose
oracle call failed: the result of building a `CodeSegment` from
`_create_error_result`. -/
def errorSegment (ts : Rat) (fn : Int) : CodeSegment where
  timestamp := ts
  frame_number := fn
  segment_type := "learning"
  code_content := none
  learning_topic := some "Analysis failed"
  confidence := 0
  language := "python"
  code_complete := false

/-- The segment recorded for a frame whose oracle response parsed
with `segment_type = stv` present. -/
def okSegment (ts : Rat) (fn : Int) (stv : String) (r : RawJudgment) : CodeSegment where
  timestamp := ts
  frame_number := fn
  segment_type := stv
  code_content := r.code_content
  learning_topic := r.learning_topic
  confidence := r.confidence.getD 0
  language := r.language.getD "python"
  code_complete := r.code_complete.getD false

lemma pyTruthy_of_ne_nil_opt {α : Type} :
    ∀ (o : Option (List α)), o ≠ some [] → pyTruthy o = o := by
  intro o h
  match o with
  | none => rfl
  | some [] => exact absurd rfl h
  | some (x :: xs) => rfl

/-- Claim C5: a `put` (`_cache_analysis`) followed by a `get`
(`_load_cached_analysis`) returns a record equal to the original in
all populated fields; in particular a `None` transcript reloads as
`None` (not an empty sequence), and likewise for concepts.  The
optional sequence fields are "populated" when they are `None` or a
nonempty list; the empty-list edge case is treated in C10. -/
theorem cache_roundtrip_preserves_analysis (a : VideoAnalysis)
    (ht : a.transcript ≠ some []) (hc : a.detected_concepts ≠ some []) :
    load_cached_analysis (cache_analysis a) = a ∧
    (a.transcript = none →
      (load_cached_analysis (cache_analysis a)).transcript = none) ∧
    (a.detected_concepts = none →
      (load_cached_analysis (cache_analysis a)).detected_concepts = none) := by
  have htr : pyTruthy a.transcript = a.transcript := pyTruthy_of_ne_nil_opt _ ht
  have hco : pyTruthy a.detected_concepts = a.detected_concepts :=
    pyTruthy_of_ne_nil_opt _ hc
  have hmain : load_cached_analysis (cache_analysis a) = a := by
    cases a
    simp only [cache_analysis, load_cached_analysis] at *
    simp [htr, hco]
  refine ⟨hmain, ?_, ?_⟩
  · intro h; rw [hmain, h]
  · intro h; rw [hmain, h]

/-- Witness for C5 at a concrete analysis whose transcript is absent
and whose concepts list is nonempty. -/
theorem cache_roundtrip_preserves_analysis_witness :
    (load_cached_analysis (cache_analysis
        { video_id := "vid"
          video_title := "title"
          duration := 40
          total_frames_analyzed := 2
          code_segments := []
          metadata := ⟨"title", 40, "author", 3, "vid"⟩
          extraction_date := "2024-01-01"
          transcript := none
          detected_concepts := some [⟨"loops", "control_flow", [2], 9/10, none⟩] }) =
      { video_id := "vid"
        video_title := "title"
        duration := 40
        total_frames_analyzed := 2
        code_segments := []
        metadata := ⟨"title", 40, "author", 3, "vid"⟩
        extraction_date := "2024-01-01"
        transcript := none
        detected_concepts := some [⟨"loops", "control_flow", [2], 9/10, none⟩] }) ∧
    (load_cached_analysis (cache_analysis
        { video_id := "vid"
          video_title := "title"
          duration := 40
          total_frames_analyzed := 2
          code_segments := []
          metadata := ⟨"title", 40, "author", 3, "vid"⟩
          extraction_date := "2024-01-01"
          transcript := none
          detected_concepts := some [⟨"loops", "control_flow", [2], 9/10, none⟩] })).transcript
      = none := by
  have h := cache_roundtrip_preserves_analysis
    { video_id := "vid"
      video_title := "title"
      duration := 40
      total_frames_analyzed := 2
      code_segments := []
      metadata := ⟨"title", 40, "author", 3, "vid"⟩
      extraction_date := "2024-01-01"
      transcript := none
      detected_concepts := some [⟨"loops", "control_flow", [2], 9/10, none⟩] }
    (by decide) (by decide)
  exact ⟨h.1, h.2.1 rfl⟩

/-- Claim C9: a stored record written by an older schema version, in
which the optional `transcript` and `detected_concepts` keys are
absent, decodes successfully with those fields `None` and all other
fields intact. -/
theorem load_absent_optional_fields (d : AnalysisDoc)
    (ht : d.transcript = none) (hc : d.detected_concepts = none) :
    load_cached_analysis d =
      { video_id := d.video_id
        video_title := d.video_title
        duration := d.duration
        total_frames_analyzed := d.total_frames_analyzed
        code_segments := d.code_segments
        metadata := d.metadata
        extraction_date := d.extraction_date
        transcript := none
        detected_concepts := none } := by
  simp [load_cached_analysis, ht, hc, pyTruthy]

/-- Witness for C9 at a concrete old-schema document. -/
theorem load_absent_optional_fields_witness :
    load_cached_analysis
        { video_id := "old"
          video_title := "t"
          duration := 10
          total_frames_analyzed := 1
          code_segments := [⟨0, 1, "learning", none, some "intro", 1/2, "python", false⟩]
          metadata := ⟨"t", 10, "a", 0, "old"⟩
          extraction_date := "2023-01-01"
          transcript := none
          detected_concepts := none } =
      { video_id := "old"
        video_title := "t"
        duration := 10
        total_frames_analyzed := 1
        code_segments := [⟨0, 1, "learning", none, some "intro", 1/2, "python", false⟩]
        metadata := ⟨"t", 10, "a", 0, "old"⟩
        extraction_date := "2023-01-01"
        transcript := none
        detected_concepts := none } := by
  exact load_absent_optional_fields _ rfl rfl

/-- Claim C10: caching an analysis whose optional `transcript` (resp.
`detected_concepts`) is an empty list omits the key from the persisted
document, so the reloaded field is `None`, and the persisted document
is identical to the one produced for the same analysis with the field
absent. -/
theorem cache_empty_list_indistinguishable_from_absent (a : VideoAnalysis) :
    (a.transcript = some [] →
      (cache_analysis a).transcript = none ∧
      (load_cached_analysis (cache_analysis a)).transcript = none ∧
      cache_analysis a = cache_analysis { a with transcript := none }) ∧
    (a.detected_concepts = some [] →
      (cache_analysis a).detected_concepts = none ∧
      (load_cached_analysis (cache_analysis a)).detected_concepts = none ∧
      cache_analysis a = cache_analysis { a with detected_concepts := none }) := by
  constructor
  · intro h
    refine ⟨?_, ?_, ?_⟩ <;>
      simp [cache_analysis, load_cached_analysis, h, pyTruthy]
  · intro h
    refine ⟨?_, ?_, ?_⟩ <;>
      simp [cache_analysis, load_cached_analysis, h, pyTruthy]

/-- Witness for C10 at a concrete analysis whose transcript and
concepts are both empty lists. -/
theorem cache_empty_list_indistinguishable_from_absent_witness :
    (cache_analysis
        { video_id := "v"
          video_title := "t"
          duration := 5
          total_frames_analyzed := 0
          code_segments := []
          metadata := ⟨"t", 5, "a", 0, "v"⟩
          extraction_date := "2024-02-02"
          transcript := some []
          detected_concepts := some [] }).transcript = none ∧
    (load_cached_analysis (cache_analysis
        { video_id := "v"
          video_title := "t"
          duration := 5
          total_frames_analyzed := 0
          code_segments := []
          metadata := ⟨"t", 5, "a", 0, "v"⟩
          extraction_date := "2024-02-02"
          transcript := some []
          detected_concepts := some [] })).detected_concepts = none := by
  have h := cache_empty_list_indistinguishable_from_absent
    { video_id := "v"
      video_title := "t"
      duration := 5
      total_frames_analyzed := 0
      code_segments := []
      metadata := ⟨"t", 5, "a", 0, "v"⟩
      extraction_date := "2024-02-02"
      transcript := some []
      detected_concepts := some [] }
  exact ⟨(h.1 rfl).1, (h.2 rfl).2.1⟩

lemma scanStep_none (t tol : Rat) (seg : CodeSegment) :
    scanStep t tol none seg =
      if |seg.timestamp - t| ≤ tol then some (|seg.timestamp - t|, seg)
      else none := rfl

lemma scanStep_some (t tol m : Rat) (b seg : CodeSegment) :
    scanStep t tol (some (m, b)) seg =
      if |seg.timestamp - t| < m ∧ |seg.timestamp - t| ≤ tol
      then some (|seg.timestamp - t|, seg) else some (m, b) := rfl

lemma foldl_scan_some_exists (t tol : Rat) :
    ∀ (l : List CodeSegment) (m : Rat) (b : CodeSegment),
      ∃ p, List.foldl (scanStep t tol) (some (m, b)) l = some p := by
  intro l
  induction l with
  | nil => exact fun m b => ⟨(m, b), rfl⟩
  | cons u rest ih =>
    intro m b
    rw [List.foldl_cons, scanStep_some]
    by_cases h : |u.timestamp - t| < m ∧ |u.timestamp - t| ≤ tol
    · rw [if_pos h]; exact ih _ _
    · rw [if_neg h]; exact ih _ _

lemma findNearest_none_iff (t tol : Rat) (l : List CodeSegment) :
    findNearest t tol l = none ↔ ∀ u ∈ l, ¬(|u.timestamp - t| ≤ tol) := by
  induction l with
  | nil => simp [findNearest]
  | cons u rest ih =>
    rw [findNearest, List.foldl_cons, scanStep_none]
    by_cases hd : |u.timestamp - t| ≤ tol
    · rw [if_pos hd]
      rcases foldl_scan_some_exists t tol rest (|u.timestamp - t|) u with ⟨p, hp⟩
      simp only [hp]
      constructor
      · intro h; exact absurd h (by simp)
      · intro h; exact absurd hd (h u (List.mem_cons_self u rest))
    · rw [if_neg hd]
      rw [findNearest] at ih
      rw [ih]
      constructor
      · intro h v hv hvtol
        rcases List.mem_cons.mp hv with rfl | hv'
        · exact hd hvtol
        · exact h v hv' hvtol
      · intro h v hv hvtol
        exact h v (List.mem_cons_of_mem u hv) hvtol

lemma foldl_scan_from_some (t tol : Rat) :
    ∀ (l : List CodeSegment) (m : Rat) (b : CodeSegment),
      m = |b.timestamp - t| → m ≤ tol →
      (List.foldl (scanStep t tol) (some (m, b)) l = some (m, b) ∧
        ∀ u ∈ l, |u.timestamp - t| ≤ tol → m ≤ |u.timestamp - t|) ∨
      (∃ l₁ s l₂, l = l₁ ++ s :: l₂ ∧
        List.foldl (scanStep t tol) (some (m, b)) l = some (|s.timestamp - t|, s) ∧
        |s.timestamp - t| < m ∧ |s.timestamp - t| ≤ tol ∧
        (∀ u ∈ l₁, |u.timestamp - t| ≤ tol →
          |s.timestamp - t| < |u.timestamp - t|) ∧
        (∀ u ∈ l₂, |u.timestamp - t| ≤ tol →
          |s.timestamp - t| ≤ |u.timestamp - t|)) := by
  intro l
  induction l with
  | nil =>
    intro m b hm hmtol
    left
    exact ⟨rfl, by simp⟩
  | cons u rest ih =>
    intro m b hm hmtol
    by_cases h : |u.timestamp - t| < m ∧ |u.timestamp - t| ≤ tol
    · have hstep : List.foldl (scanStep t tol) (some (m, b)) (u :: rest) =
          List.foldl (scanStep t tol) (some (|u.timestamp - t|, u)) rest := by
        rw [List.foldl_cons, scanStep_some, if_pos h]
      rcases ih (|u.timestamp - t|) u rfl h.2 with
        ⟨hfold, hall⟩ | ⟨l₁, s, l₂, hdecomp, hfold, hlt, htol2, hbefore, hafter⟩
      · right
        refine ⟨[], u, rest, by simp, ?_, h.1, h.2, by simp, hall⟩
        rw [hstep]; exact hfold
      · right
        refine ⟨u :: l₁, s, l₂, by rw [hdecomp]; rfl, ?_,
          lt_trans hlt h.1, htol2, ?_, hafter⟩
        · rw [hstep]; exact hfold
        · intro v hv hvtol
          rcases List.mem_cons.mp hv with rfl | hv'
          · exact hlt
          · exact hbefore v hv' hvtol
    · have hge : m ≤ |u.timestamp - t| := by
        rcases not_and_or.mp h with h1 | h1
        · exact le_of_not_lt h1
        · exact le_trans hmtol (le_of_not_le h1)
      have hstep : List.foldl (scanStep t tol) (some (m, b)) (u :: rest) =
          List.foldl (scanStep t tol) (some (m, b)) rest := by
        rw [List.foldl_cons, scanStep_some, if_neg h]
      rcases ih m b hm hmtol with
        ⟨hfold, hall⟩ | ⟨l₁, s, l₂, hdecomp, hfold, hlt, htol2, hbefore, hafter⟩
      · left
        refine ⟨by rw [hstep]; exact hfold, ?_⟩
        intro v hv hvtol
        rcases List.mem_cons.mp hv with rfl | hv'
        · exact hge
        · exact hall v hv' hvtol
      · right
        refine ⟨u :: l₁, s, l₂, by rw [hdecomp]; rfl, ?_, hlt, htol2, ?_, hafter⟩
        · rw [hstep]; exact hfold
        · intro v hv hvtol
          rcases List.mem_cons.mp hv with rfl | hv'
          · exact lt_of_lt_of_le hlt hge
          · exact hbefore v hv' hvtol

lemma findNearest_spec (t tol : Rat) :
    ∀ l : List CodeSegment, (∃ u ∈ l, |u.timestamp - t| ≤ tol) →
      ∃ s, findNearest t tol l = some (|s.timestamp - t|, s) ∧
        IsFirstNearest t tol l s := by
  intro l
  induction l with
  | nil => intro hex; simp at hex
  | cons u rest ih =>
    intro hex
    by_cases hd : |u.timestamp - t| ≤ tol
    · have hstep : findNearest t tol (u :: rest) =
          List.foldl (scanStep t tol) (some (|u.timestamp - t|, u)) rest := by
        rw [findNearest, List.foldl_cons, scanStep_none, if_pos hd]
      rcases foldl_scan_from_some t tol rest (|u.timestamp - t|) u rfl hd with
        ⟨hfold, hall⟩ | ⟨l₁, s, l₂, hdecomp, hfold, hlt, htol2, hbefore, hafter⟩
      · exact ⟨u, by rw [hstep, hfold],
          ⟨[], rest, by simp, hd, by simp, hall⟩⟩
      · refine ⟨s, by rw [hstep, hfold],
          ⟨u :: l₁, l₂, by rw [hdecomp]; rfl, htol2, ?_, hafter⟩⟩
        intro v hv hvtol
        rcases List.mem_cons.mp hv with rfl | hv'
        · exact hlt
        · exact hbefore v hv' hvtol
    · have hstep : findNearest t tol (u :: rest) = findNearest t tol rest := by
        rw [findNearest, List.foldl_cons, scanStep_none, if_neg hd, findNearest]
      have hex' : ∃ v ∈ rest, |v.timestamp - t| ≤ tol := by
        rcases hex with ⟨v, hv, hvtol⟩
        rcases List.mem_cons.mp hv with rfl | hv'
        · exact absurd hvtol hd
        · exact ⟨v, hv', hvtol⟩
      rcases ih hex' with ⟨s, hfold, l₁, l₂, hdecomp, hstol, hbefore, hafter⟩
      refine ⟨s, by rw [hstep]; exact hfold,
        ⟨u :: l₁, l₂, by rw [hdecomp]; rfl, hstol, ?_, hafter⟩⟩
      intro v hv hvtol
      rcases List.mem_cons.mp hv with rfl | hv'
      · exact absurd hvtol hd
      · exact hbefore v hv' hvtol

/-- Claim C1: for every cached analysis with segment list `S`, every
timestamp `t` and tolerance `tol`, `get_code_at_timestamp` returns the
segment of `S` minimising the absolute timestamp difference among the
segments within tolerance, exact ties won by the segment occurring
earlier in `S`; if no segment is within tolerance it returns
found=false together with the requested timestamp `t`. -/
theorem query_at_returns_first_nearest (st : ServiceState) (vid : String)
    (t tol : Rat) (doc : AnalysisDoc)
    (hdoc : lookupKey st.cache vid = some doc) :
    ((∀ u ∈ (load_cached_analysis doc).code_segments,
        ¬(|u.timestamp - t| ≤ tol)) →
      get_code_at_timestamp st vid t tol = QueryResult.notFound t) ∧
    ((∃ u ∈ (load_cached_analysis doc).code_segments,
        |u.timestamp - t| ≤ tol) →
      ∃ s, IsFirstNearest t tol (load_cached_analysis doc).code_segments s ∧
        get_code_at_timestamp st vid t tol = resultOf t (|s.timestamp - t|) s) := by
  constructor
  · intro hnone
    have h : findNearest t tol (load_cached_analysis doc).code_segments = none :=
      (findNearest_none_iff t tol _).mpr hnone
    simp [get_code_at_timestamp, hdoc, h]
  · intro hex
    rcases findNearest_spec t tol _ hex with ⟨s, hfold, hfn⟩
    exact ⟨s, hfn, by simp [get_code_at_timestamp, hdoc, hfold]⟩

unseal Rat.add Rat.sub Rat.mul Rat.inv in
/-- Witness for C1: the tolerance-boundary scenario of the spec, with
segments at t=10.0 and t=13.0.  A query at 11.6 with tolerance 1
returns found=false (both differences 1.6 and 1.4 exceed 1); a query
at 11.4 with tolerance 2 selects the segment at 10.0 (difference 1.4,
beating 1.6). -/
theorem query_at_returns_first_nearest_witness :
    get_code_at_timestamp c1State "vid1" (58/5) 1 = QueryResult.notFound (58/5) ∧
    get_code_at_timestamp c1State "vid1" (57/5) 2 = resultOf (57/5) (7/5) c1Seg10 := by
  refine ⟨(query_at_returns_first_nearest c1State "vid1" (58/5) 1 c1Doc
    (by decide)).1 (by decide), by decide⟩


lemma ceil_div_succ_of_mod_eq_zero (k F : Nat) (hk : 0 < k) (h : F % k = 0) :
    (F + 1 + k - 1) / k = (F + k - 1) / k + 1 ∧ (F + k - 1) / k * k = F := by
  obtain ⟨q, hq⟩ := Nat.dvd_of_mod_eq_zero h
  subst hq
  have e1 : k * q + 1 + k - 1 = k * (q + 1) := by rw [Nat.mul_add, Nat.mul_one]; omega
  have e2 : k * q + k - 1 = k * q + (k - 1) := by omega
  have e3 : (k * q + (k - 1)) / k = q := by
    rw [Nat.mul_add_div hk, Nat.div_eq_of_lt (by omega)]
    omega
  have e4 : k * (q + 1) / k = q + 1 := Nat.mul_div_cancel_left _ hk
  constructor
  · rw [e1, e2, e3, e4]
  · rw [e2, e3, Nat.mul_comm]

lemma ceil_div_succ_of_mod_ne_zero (k F : Nat) (hk : 0 < k) (h : F % k ≠ 0) :
    (F + 1 + k - 1) / k = (F + k - 1) / k := by
  have hdm := Nat.div_add_mod F k
  have hr1 : 1 ≤ F % k := Nat.one_le_iff_ne_zero.mpr h
  have hr2 : F % k < k := Nat.mod_lt F hk
  set q := F / k
  set r := F % k
  have h1 : F + 1 + k - 1 = k * q + (k + r) := by omega
  have h2 : F + k - 1 = k * q + (k + (r - 1)) := by omega
  have e1 : (k + r) / k = 1 := by
    rw [Nat.add_div_left _ hk, Nat.div_eq_of_lt hr2]
  have e2 : (k + (r - 1)) / k = 1 := by
    rw [Nat.add_div_left _ hk, Nat.div_eq_of_lt (by omega)]
  rw [h1, h2, Nat.mul_add_div hk, Nat.mul_add_div hk, e1, e2]

lemma filter_range_mod (k : Nat) (hk : 0 < k) :
    ∀ F : Nat, (List.range F).filter (fun n => n % k == 0) =
      (List.range ((F + k - 1) / k)).map (fun j => j * k) := by
  intro F
  induction F with
  | zero =>
    simp [Nat.div_eq_of_lt (show k - 1 < k by omega)]
  | succ F ih =>
    rw [List.range_succ, List.filter_append, ih]
    by_cases h : F % k = 0
    · obtain ⟨hsucc, hmul⟩ := ceil_div_succ_of_mod_eq_zero k F hk h
      rw [hsucc, List.range_succ, List.map_append]
      have hpf : (F % k == 0) = true := by simpa using h
      simp [List.filter, hpf, hmul]
    · rw [ceil_div_succ_of_mod_ne_zero k F hk h]
      have hpf : (F % k == 0) = false := by simpa using h
      simp [List.filter, hpf]

unseal Rat.add Rat.sub Rat.mul Rat.inv in
/-- Claim C2 is refuted on the code at two explicit inputs.  With
fps=1, 7 frames and a 2-second interval, the sampler (which samples
frames 0,2,4,6) emits 4 samples, not floor(7/2) = 3 as the claim
computes.  With fps=3/2, 6 frames and a 1-second interval,
`int(fps*i)` truncates 1.5 to 1 (the claim rounds it to 2), so 6
samples are emitted, not floor(6/2) = 3, and the second sample sits at
timestamp 2/3, not at the claimed spacing of i=1 seconds from the
first sample at 0. -/
theorem extract_frames_fixed_interval_counterexample :
    (extract_frames_fixed_interval 1 7 2).map List.length = some 4 ∧
    (4 : Nat) ≠ 7 / 2 ∧
    (extract_frames_fixed_interval (3/2) 6 1).map List.length = some 6 ∧
    (6 : Nat) ≠ 6 / 2 ∧
    ((extract_frames_fixed_interval (3/2) 6 1).bind (fun l => l[1]?)).map Prod.fst =
      some (2/3) ∧ ((2 : Rat)/3) ≠ 1 := by
  exact ⟨by decide, by decide, by decide, by decide, by decide, by decide⟩

/-- Claim C2 (amended): for a readable media file with
`total_frames ≥ 1` frames at `fps > 0`, and an interval whose derived
`frame_interval = int(fps * interval_seconds)` (truncation, not
rounding) is at least 1, `extract_frames_fixed_interval` emits exactly
`ceil(total_frames / frame_interval)`, i.e.
`(total_frames - 1) / frame_interval + 1`, samples — one more than
`floor(total_frames / frame_interval)` whenever `frame_interval` does
not divide `total_frames` — selecting every `frame_interval`-th frame
in decode order starting at frame 0, with strictly increasing
timestamps spaced `frame_interval / fps` seconds apart (equal to the
requested interval exactly when `fps * interval_seconds` is an
integer). -/
theorem extract_frames_fixed_interval_count_and_spacing
    (fps interval_seconds : Rat) (total_frames : Nat) (hfps : 0 < fps)
    (hk : 1 ≤ (fps * interval_seconds).floor) (htot : 1 ≤ total_frames) :
    ∃ l, extract_frames_fixed_interval fps total_frames interval_seconds = some l ∧
      l.length = (total_frames - 1) / ((fps * interval_seconds).floor).toNat + 1 ∧
      (∀ j, j < l.length → l[j]? =
        some (((j * ((fps * interval_seconds).floor).toNat : Nat) : Rat) / fps,
          j * ((fps * interval_seconds).floor).toNat + 1)) ∧
      (∀ j, j + 1 < l.length → ∃ a b, l[j]? = some a ∧ l[j+1]? = some b ∧
        a.1 < b.1 ∧
        b.1 - a.1 = ((((fps * interval_seconds).floor).toNat : Nat) : Rat) / fps) := by
  set k : Nat := ((fps * interval_seconds).floor).toNat with hkdef
  have hk0 : 0 < k := by
    have := Int.toNat_of_nonneg (le_trans (by norm_num) hk)
    omega
  have hne : ¬ (k = 0) := by omega
  have hlen : (total_frames + k - 1) / k = (total_frames - 1) / k + 1 := by
    have h1 : total_frames + k - 1 = (total_frames - 1) + k := by omega
    rw [h1, Nat.add_div_right _ hk0]
  refine ⟨((List.range ((total_frames + k - 1) / k)).map (fun j => j * k)).map
      (fun (n : Nat) => ((n : Rat) / fps, n + 1)), ?_, ?_, ?_, ?_⟩
  · simp only [extract_frames_fixed_interval, ← hkdef, if_neg hne,
      filter_range_mod k hk0 total_frames]
  · simp [hlen]
  · intro j hj
    simp only [List.length_map, List.length_range] at hj
    simp [List.getElem?_map, List.getElem?_range hj]
  · intro j hj
    simp only [List.length_map, List.length_range] at hj
    have hj1 : j < (total_frames + k - 1) / k := by omega
    have hj2 : j + 1 < (total_frames + k - 1) / k := by omega
    have hspace : ((((j + 1) * k : Nat) : Rat) / fps) - (((j * k : Nat) : Rat) / fps)
        = ((k : Nat) : Rat) / fps := by
      rw [div_sub_div_same]
      congr 1
      push_cast
      ring
    have hkpos : (0 : Rat) < ((k : Nat) : Rat) := by exact_mod_cast hk0
    have hlt : (((j * k : Nat) : Rat) / fps) < ((((j + 1) * k : Nat) : Rat) / fps) := by
      have := div_pos hkpos hfps
      linarith [hspace]
    refine ⟨(((j * k : Nat) : Rat) / fps, j * k + 1),
      ((((j + 1) * k : Nat) : Rat) / fps, (j + 1) * k + 1), ?_, ?_, hlt, hspace⟩
    · simp [List.getElem?_map, List.getElem?_range hj1]
    · simp [List.getElem?_map, List.getElem?_range hj2]

unseal Rat.add Rat.sub Rat.mul Rat.inv in
/-- Witness for the amended C2 at the end-to-end scenario of the spec:
a 40-second video at 30 fps (1200 frames) sampled every 2 seconds
yields exactly 20 samples, with first timestamp 0 and last timestamp
38. -/
theorem extract_frames_fixed_interval_count_and_spacing_witness :
    ∃ l, extract_frames_fixed_interval 30 1200 2 = some l ∧ l.length = 20 ∧
      l[0]?.map Prod.fst = some 0 ∧ l[19]?.map Prod.fst = some 38 := by
  obtain ⟨l, he, hlen, hget, -⟩ :=
    extract_frames_fixed_interval_count_and_spacing 30 2 1200 (by norm_num)
      (by decide) (by norm_num)
  have hlen20 : l.length = 20 := by rw [hlen]; decide
  refine ⟨l, he, hlen20, ?_, ?_⟩
  · rw [hget 0 (by omega)]
    decide
  · rw [hget 19 (by omega)]
    decide

lemma buildSegmentsFrom_ok (oracle : Nat → Except String RawJudgment) :
    ∀ (frames : List (Rat × Int)) (idx : Nat),
      (∀ i, i < frames.length → ∀ r, oracle (idx + i) = Except.ok r →
        (r.segment_type).isSome) →
      ∃ l, buildSegmentsFrom oracle idx frames = Except.ok l ∧
        l.length = frames.length ∧
        ∀ i p, frames[i]? = some p →
          ∃ s, segment_of_analysis p.1 p.2 (analyze_frame (oracle (idx + i)) p.1)
              = Except.ok s ∧ l[i]? = some s := by
  intro frames
  induction frames with
  | nil =>
    intro idx hwf
    refine ⟨[], rfl, rfl, ?_⟩
    intro i p hp
    simp at hp
  | cons p rest ih =>
    intro idx hwf
    have hhead : ∃ s, segment_of_analysis p.1 p.2 (analyze_frame (oracle idx) p.1)
        = Except.ok s := by
      rcases hora : oracle idx with e | r
      · exact ⟨errorSegment p.1 p.2, rfl⟩
      · rcases hopt : r.segment_type with _ | stv
        · exfalso
          have hsome := hwf 0 (by simp) r (by simpa using hora)
          rw [hopt] at hsome
          simp at hsome
        · refine ⟨okSegment p.1 p.2 stv r, ?_⟩
          simp [analyze_frame, segment_of_analysis, hopt, okSegment]
    obtain ⟨s, hs⟩ := hhead
    have hwf2 : ∀ i, i < rest.length → ∀ r, oracle (idx + 1 + i) = Except.ok r →
        (r.segment_type).isSome := by
      intro i hi r h
      apply hwf (i + 1) (by simp; omega) r
      have hx : idx + (i + 1) = idx + 1 + i := by omega
      rw [hx]
      exact h
    obtain ⟨tail, htail, hlen, hget⟩ := ih (idx + 1) hwf2
    refine ⟨s :: tail, ?_, by simp [hlen], ?_⟩
    · simp only [buildSegmentsFrom, hs, htail]
    · intro i q hq
      cases i with
      | zero =>
        have hqp : p = q := by simpa using hq
        subst hqp
        exact ⟨s, by simpa using hs, by simp⟩
      | succ i =>
        have hq2 : rest[i]? = some q := by simpa using hq
        obtain ⟨s2, hs2, hl2⟩ := hget i q hq2
        refine ⟨s2, ?_, by simpa using hl2⟩
        have hx : idx + (i + 1) = idx + 1 + i := by omega
        rw [hx]
        exact hs2

/-- Claim C6 is refuted on the code at explicit inputs.  First, the
conservative default recorded on a transport error carries
`learning_topic = "Analysis failed"`, not the claimed string
`"analysis failed"`.  Second, a malformed but parseable oracle
response that lacks the `segment_type` key raises a `KeyError` in the
segment-construction loop and aborts the whole batch, so not every
oracle failure is absorbed. -/
theorem oracle_failure_default_counterexample :
    buildSegments (fun _ => Except.error "transport error") [((5 : Rat), (6 : Int))] =
      Except.ok [errorSegment 5 6] ∧
    (analyze_frame (Except.error "transport error") 5).learning_topic ≠
      some "analysis failed" ∧
    buildSegments
        (fun _ => Except.ok ⟨none, none, none, none, none, none, none⟩)
        [((5 : Rat), (6 : Int))] = Except.error "KeyError: segment_type" := by
  exact ⟨rfl, by decide, rfl⟩

/-- Claim C6 (amended): for every frame batch in which each parseable
oracle response carries the mandatory `segment_type` field, the
assembler classifies every frame (one segment per frame, none
skipped), and every frame whose oracle call fails with a transport
error or unparseable output receives the conservative default segment
`kind=learning, confidence=0.0, topicText="Analysis failed"` (note the
capitalisation in the source) instead of aborting the batch; a
parseable response missing `segment_type`, by contrast, raises and
aborts the job, as the counterexample shows. -/
theorem oracle_failure_yields_default_segment
    (oracle : Nat → Except String RawJudgment) (frames : List (Rat × Int))
    (hwf : ∀ i, i < frames.length → ∀ r, oracle i = Except.ok r →
      (r.segment_type).isSome) :
    ∃ l, buildSegments oracle frames = Except.ok l ∧
      l.length = frames.length ∧
      (∀ i p e, frames[i]? = some p → oracle i = Except.error e →
        l[i]? = some (errorSegment p.1 p.2)) ∧
      (∀ i p r, frames[i]? = some p → oracle i = Except.ok r →
        ∃ s, segment_of_analysis p.1 p.2 (analyze_frame (Except.ok r) p.1)
            = Except.ok s ∧ l[i]? = some s) := by
  obtain ⟨l, hok, hlen, hget⟩ := buildSegmentsFrom_ok oracle frames 0
    (by intro i hi r h; exact hwf i hi r (by simpa using h))
  refine ⟨l, hok, hlen, ?_, ?_⟩
  · intro i p e hp hora
    obtain ⟨s, hs, hl⟩ := hget i p hp
    rw [show (0 : Nat) + i = i by omega, hora] at hs
    have hcalc : segment_of_analysis p.1 p.2 (analyze_frame (Except.error e) p.1) =
        Except.ok (errorSegment p.1 p.2) := rfl
    rw [hcalc] at hs
    simp only [Except.ok.injEq] at hs
    rw [hs]
    exact hl
  · intro i p r hp hora
    obtain ⟨s, hs, hl⟩ := hget i p hp
    rw [show (0 : Nat) + i = i by omega, hora] at hs
    exact ⟨s, hs, hl⟩

/-- Witness for the amended C6: in a two-frame batch whose first
oracle call fails, both frames are classified and the first receives
the default segment. -/
theorem oracle_failure_yields_default_segment_witness :
    ∃ l, buildSegments c6Oracle [((0 : Rat), (1 : Int)), ((2 : Rat), (61 : Int))] =
        Except.ok l ∧ l.length = 2 ∧
      l[0]? = some (errorSegment 0 1) := by
  have hwf6 : ∀ i, i < ([((0 : Rat), (1 : Int)), ((2 : Rat), (61 : Int))] :
      List (Rat × Int)).length → ∀ r, c6Oracle i = Except.ok r →
      (r.segment_type).isSome := by
    intro i hi r h
    have hi2 : i < 2 := by simpa using hi
    interval_cases i
    · simp [c6Oracle] at h
    · have hval : c6Oracle 1 = Except.ok ⟨some "code", some true, some "x = 1",
        none, some 1, some "python", some true⟩ := rfl
      rw [hval] at h
      injection h with h
      subst h
      rfl
  obtain ⟨l, hok, hlen, herr, -⟩ := oracle_failure_yields_default_segment c6Oracle
    [((0 : Rat), (1 : Int)), ((2 : Rat), (61 : Int))] hwf6
  refine ⟨l, hok, by rw [hlen]; rfl, ?_⟩
  have := herr 0 ((0 : Rat), (1 : Int)) "transport error" rfl rfl
  simpa using this

/-- Claim C3 is right about the intended recovery heuristic but the
code misses it: `download_video` stores media at
`videos/{playlist}/{video_id}/video.mp4`, while `get_video_status`
searches the stale flat pattern `videos/{video_id}*.mp4`, so a
partially downloaded file on disk (with no cache entry and no progress
entry) is reported `not_found` with progress 0 instead of
`processing` with progress 10. -/
theorem status_misses_nested_partial_download :
    download_output_path none "abc" = ["videos", "single", "abc", "video.mp4"] ∧
    get_video_status
        { cache := [], progress := [], files := [download_output_path none "abc"] }
        "abc" =
      { video_id := "abc", status := "not_found", progress := 0,
        stage := "Not started", current_frame := none, total_frames := none } := by
  exact ⟨rfl, rfl⟩

/-- Claim C8 is right about idempotence, the untouched cache and
cancel-then-status, but wrong that partial media files are deleted:
`cancel_video_processing` unlinks only flat `videos/{video_id}*`
paths, so the partial download at `videos/single/abc/video.mp4`
written by `download_video` survives cancellation, while the progress
entry is removed, a subsequent status query reports `not_found`, a
cached analysis entry is untouched, and cancelling with no active job
changes nothing. -/
theorem cancel_misses_nested_partial_download :
    cancel_video_processing
        { cache := [], progress := [("abc", c8Progress)],
          files := [download_output_path none "abc"] } "abc" =
      { cache := [], progress := [],
        files := [["videos", "single", "abc", "video.mp4"]] } ∧
    get_video_status
        (cancel_video_processing
          { cache := [], progress := [("abc", c8Progress)],
            files := [download_output_path none "abc"] } "abc") "abc" =
      { video_id := "abc", status := "not_found", progress := 0,
        stage := "Not started", current_frame := none, total_frames := none } ∧
    cancel_video_processing
        { cache := [("abc", c7Doc)], progress := [], files := [] } "abc" =
      { cache := [("abc", c7Doc)], progress := [], files := [] } := by
  exact ⟨rfl, rfl, rfl⟩

/-- Claim C7: when the videoId derived from the url already has a
cached analysis and `force_reprocess` is false, `process_video`
returns the loaded cached analysis and leaves the service state
entirely unchanged: no progress entry is created and the cache is not
rewritten. -/
theorem process_video_cache_hit (env : PipelineEnv) (st : ServiceState)
    (url : String) (doc : AnalysisDoc)
    (hdoc : lookupKey st.cache (extract_video_id env.md5hex url) = some doc) :
    process_video env st url false = (Except.ok (load_cached_analysis doc), st) := by
  simp [process_video, hdoc]

/-- Witness for C7 at a concrete url, cached document and
fail-everything environment: the cache hit consults no collaborator
and returns the stored analysis with the state unchanged. -/
theorem process_video_cache_hit_witness :
    process_video c7Env c7State "https://www.youtube.com/watch?v=abc" false =
      (Except.ok (load_cached_analysis c7Doc), c7State) :=
  process_video_cache_hit c7Env c7State "https://www.youtube.com/watch?v=abc" c7Doc rfl

/-- Claim C4 is refuted on the code: in every successful run of
`process_video` the progress entry is set to status `completed` with
percent 95 (stage "Saving analysis...") immediately BEFORE the cache
write, so a reachable state pairs status `completed` with a percent
different from 100. -/
theorem completed_with_percent_95_reachable :
    ProgressInfo.mk "completed" 95 "Saving analysis..." 1 1 ∈
      process_video_progress_trace [] 1 ∧ (95 : Nat) ≠ 100 := by
  exact ⟨by decide, by decide⟩

/-- Claim C4 (amended): throughout a successful run of
`process_video`, every progress state whose status is `completed` has
percent 95 (the single pre-save state written just before the cache
write) or percent 100; the final state, entered only after the cache
write returns, is completed/100. -/
theorem completed_status_has_percent_95_or_100 (downloadPcts : List Nat)
    (total : Nat) :
    (∀ s ∈ process_video_progress_trace downloadPcts total,
      s.status = "completed" → s.progress = 95 ∨ s.progress = 100) ∧
    (process_video_progress_trace downloadPcts total).getLast? =
      some (completedProgress total) := by
  constructor
  · intro s hs hc
    unfold process_video_progress_trace at hs
    simp only [List.mem_append, List.mem_singleton, List.mem_map] at hs
    rcases hs with (((((((h | h) | h) | h) | h) | h) | h) | h)
    · subst h
      exact absurd hc (by decide)
    · obtain ⟨pct, -, h⟩ := h
      subst h
      have hst : (downloadHookState pct).status = "downloading" := rfl
      rw [hst] at hc
      exact absurd hc (by decide)
    · subst h
      exact absurd hc (by decide)
    · subst h
      exact absurd hc (by decide)
    · have hst : (analyzingHeaderProgress total).status = "analyzing" := rfl
      subst h
      rw [hst] at hc
      exact absurd hc (by decide)
    · obtain ⟨idx, -, h⟩ := h
      subst h
      have hst : (analyzingFrameState total (idx + 1)).status = "analyzing" := rfl
      rw [hst] at hc
      exact absurd hc (by decide)
    · subst h
      left
      rfl
    · subst h
      right
      rfl
  · unfold process_video_progress_trace
    exact List.getLast?_concat _

/-- Witness for the amended C4: in the one-frame successful run, the
pre-save completed state has percent 95 (hence 95 or 100), and the
final state is completed/100. -/
theorem completed_status_has_percent_95_or_100_witness :
    ((savingProgress 1).progress = 95 ∨ (savingProgress 1).progress = 100) ∧
    (process_video_progress_trace [] 1).getLast? = some (completedProgress 1) :=
  ⟨(completed_status_has_percent_95_or_100 [] 1).1 (savingProgress 1)
      (by decide) rfl,
    (completed_status_has_percent_95_or_100 [] 1).2⟩
